import Mathlib

/-!
Verification of the kv_server write path: a shallow embedding of the
chain-proposal controller (`src/controller/payload.rs`), the hello
controller (`src/controller/hello.rs`) and the configuration loader
(`src/config/mod.rs`), together with models of the external collaborators
(chain store, canonical payload builder, error taxonomy) that the source
tree references but does not contain, modelled from the specification.
-/

/-- Hexadecimal digit characters. -/
def hexDigits : List Char := "0123456789abcdef".data

/-- Lower-case hex digit for a value below 16. -/
def hexDigit (n : Nat) : Char := hexDigits.getD n '0'

/-- Hex encoding of one byte, two lower-case digits. -/
def hexByte (b : Nat) : String := String.mk [hexDigit (b / 16 % 16), hexDigit (b % 16)]

/-- Hex encoding of a byte vector. -/
def hexEncode (bs : List Nat) : String := String.join (bs.map hexByte)

/-- Standard base64 alphabet. -/
def base64Alphabet : List Char :=
  "ABCDEFGHIJKLMNOPQRSTUVWXYZabcdefghijklmnopqrstuvwxyz0123456789+/".data

/-- Base64 character for a 6-bit value. -/
def b64Char (n : Nat) : Char := base64Alphabet.getD n 'A'

/-- Standard base64 encoding (with padding) of a byte vector. -/
def base64Encode : List Nat → String
  | [] => ""
  | [b1] =>
      String.mk [b64Char (b1 / 4), b64Char (b1 % 4 * 16)] ++ "=="
  | [b1, b2] =>
      String.mk [b64Char (b1 / 4), b64Char (b1 % 4 * 16 + b2 / 16),
                 b64Char (b2 % 16 * 4)] ++ "="
  | b1 :: b2 :: b3 :: rest =>
      String.mk [b64Char (b1 / 4), b64Char (b1 % 4 * 16 + b2 / 16),
                 b64Char (b2 % 16 * 4 + b3 / 64), b64Char (b3 % 64)] ++
      base64Encode rest

/-- Modelled from the spec: a committed chain link as persisted by the chain
store (`model/kv_chains.rs` is not part of the examined sources; fields are
from the spec data model and the insert in the payload controller tests).
Byte vectors are lists of byte values. -/
structure KVChain where
  id : Nat
  uuid : Nat
  persona : List Nat
  platform : String
  identity : String
  patch : String
  previous_id : Option Nat
  signature : List Nat
  signature_payload : String
  created_at : Int
  deriving DecidableEq, Repr

/-- Modelled from the spec: a pending (proposed) chain-link draft, the input
of the canonical payload builder.  `previous` holds the signature bytes of
the previous committed link of the same persona, if any; `uuid` is the
client-visible external identifier. -/
structure NewKVChain where
  uuid : Nat
  persona : List Nat
  platform : String
  identity : String
  patch : String
  previous : Option (List Nat)
  created_at : Int
  deriving DecidableEq, Repr

/-- Rendering of the `previous` field of the canonical payload: base64 of
the previous committed signature in quotes, or the JSON literal null. -/
def renderPrevious : Option (List Nat) → String
  | none => "null"
  | some sig => "\"" ++ base64Encode sig ++ "\""

/-- Modelled from the spec: the canonical payload builder
(`NewKVChain::generate_signature_payload`, in the absent
`model/kv_chains.rs`).  A deterministic JSON rendering with a fixed
(alphabetical) key order, fixed formatting, containing the hex-encoded
persona key, platform, identity, the patch verbatim, the `previous` field
(base64 of the previous committed signature or null), the external id and
the integer timestamp. -/
def generate_signature_payload (d : NewKVChain) : String :=
  "\x7b" ++ "\"created_at\":" ++ toString d.created_at ++ "," ++
  "\"identity\":\"" ++ d.identity ++ "\"," ++
  "\"patch\":" ++ d.patch ++ "," ++
  "\"persona\":\"" ++ hexEncode d.persona ++ "\"," ++
  "\"platform\":\"" ++ d.platform ++ "\"," ++
  "\"previous\":" ++ renderPrevious d.previous ++ "," ++
  "\"uuid\":\"" ++ toString d.uuid ++ "\"" ++ "\x7d"

/-- Modelled from the spec: the committed links of a persona inside the
chain store — links whose owner matches and whose signature is non-empty
(a proposed, never-committed link has an empty signature and never
participates in head resolution). -/
def committedLinks (store : List KVChain) (pk : List Nat) : List KVChain :=
  store.filter (fun l => l.persona == pk && !(l.signature == []))

/-- Modelled from the spec: the chain head resolver — the most recently
committed link of a persona (latest by the server-assigned ordering key),
or none for a fresh persona. -/
def latestCommitted (store : List KVChain) (pk : List Nat) : Option KVChain :=
  (committedLinks store pk).foldl
    (fun acc l =>
      match acc with
      | none => some l
      | some m => if m.id < l.id then some l else some m)
    none

/-- Modelled from the spec: `NewKVChain::for_persona` (in the absent
`model/kv_chains.rs`) — builds a fresh draft for a persona, resolving the
chain head and recording the previous committed link's signature bytes
(none for a fresh persona).  The external id and the creation timestamp
are fixed here at proposal time. -/
def for_persona (store : List KVChain) (pk : List Nat) (now : Int)
    (freshUuid : Nat) : NewKVChain :=
  { uuid := freshUuid
    persona := pk
    platform := ""
    identity := ""
    patch := "null"
    previous := (latestCommitted store pk).map (fun l => l.signature)
    created_at := now }

/-- Modelled from the spec: the error taxonomy (`error.rs` is not part of
the examined sources).  `ParamMissing` carries the missing query-parameter
name, as in the hello controller. -/
inductive KVError where
  | MissingParameter : KVError
  | InvalidKey : KVError
  | NotAuthorized : KVError
  | UpstreamUnavailable : KVError
  | Conflict : KVError
  | SignatureInvalid : KVError
  | StorageError : KVError
  | ParamMissing : String → KVError
  deriving DecidableEq, Repr

/-- The proposal request body (`PayloadRequest` in
`src/controller/payload.rs`); the patch is carried as its JSON text. -/
structure PayloadRequest where
  persona : Option String
  avatar : Option String
  platform : String
  identity : String
  patch : String
  deriving DecidableEq, Repr

/-- The proposal response body (`PayloadResponse` in
`src/controller/payload.rs`). -/
structure PayloadResponse where
  uuid : Nat
  sign_payload : String
  created_at : Int
  deriving DecidableEq, Repr

/-- Side effects the proposal controller can perform, in order of
occurrence: the authorization network call, opening the store connection,
resolving the chain head, and generating the signature payload. -/
inductive Effect where
  | authCall : Effect
  | dbConnect : Effect
  | dbHeadResolve : Effect
  | payloadGen : Effect
  deriving DecidableEq, Repr

/-- The world the proposal controller runs against: the public-key
normalizer (`Secp256k1KeyPair::from_pubkey_hex`, an external collaborator,
kept abstract), the authorization gate's verdict (`can_set_kv`), the chain
store, and the proposal-time timestamp and fresh external id. -/
structure World where
  normalize : String → Except KVError (List Nat)
  authAllow : List Nat → String → String → Bool
  store : List KVChain
  now : Int
  freshUuid : Nat

/-- Key selection of the proposal controller, exactly
`params.avatar.or(params.persona)` from `src/controller/payload.rs`. -/
def selectKey (req : PayloadRequest) : Option String :=
  req.avatar.or req.persona

/-- The draft the controller submits to the payload builder: the head-based
draft from `for_persona` with the request's platform, identity and patch
filled in (lines 40-42 of `src/controller/payload.rs`). -/
def proposeDraft (w : World) (req : PayloadRequest) (pk : List Nat) : NewKVChain :=
  { for_persona w.store pk w.now w.freshUuid with
    platform := req.platform
    identity := req.identity
    patch := req.patch }

/-- The proposal controller (`controller` in `src/controller/payload.rs`),
with the sequencing of the source made explicit: key selection, key
normalization, the authorization gate, the store connection, head
resolution, payload generation.  Returns the outcome together with the
trace of effects performed. -/
def controller (w : World) (req : PayloadRequest) :
    Except KVError PayloadResponse × List Effect :=
  match selectKey req with
  | none => (Except.error KVError.MissingParameter, [])
  | some keyHex =>
    match w.normalize keyHex with
    | Except.error e => (Except.error e, [])
    | Except.ok pk =>
      if w.authAllow pk req.platform req.identity then
        (Except.ok ⟨(proposeDraft w req pk).uuid,
                    generate_signature_payload (proposeDraft w req pk),
                    (proposeDraft w req pk).created_at⟩,
          [Effect.authCall, Effect.dbConnect, Effect.dbHeadResolve, Effect.payloadGen])
      else
        (Except.error KVError.NotAuthorized, [Effect.authCall])

/-- Identifier of the chain head: the id of the most recently committed
link, none for an empty chain (most recent first). -/
def headId : List KVChain → Option Nat
  | [] => none
  | l :: _ => some l.id

/-- Modelled from the spec: the states one persona's committed chain can
reach.  A chain starts empty; a proposal leaves the committed links
untouched (an uncommitted link has no chain effect); a commit appends a
link carrying a fresh server-assigned id and a `previous_id` reference to
the current head, with a non-empty signature.  The list is most recent
first. -/
inductive Reachable : List KVChain → Prop where
  | empty : Reachable []
  | propose (s : List KVChain) : Reachable s → Reachable s
  | commit (s : List KVChain) (l : KVChain) : Reachable s →
      l.id = s.length → l.previous_id = headId s → l.signature ≠ [] →
      Reachable (l :: s)

/-- Structural shape of a committed chain: each link's id is the number of
links below it and its `previous_id` is the head of the rest. -/
def wellFormed : List KVChain → Prop
  | [] => True
  | l :: rest => l.id = rest.length ∧ l.previous_id = headId rest ∧ wellFormed rest

/-- Find the committed link with a given id. -/
def lookupId (s : List KVChain) (i : Nat) : Option KVChain :=
  s.find? (fun l => l.id == i)

/-- Follow `previous_id` references through the store for at most the given
number of steps, stopping at a link without a predecessor. -/
def back (s : List KVChain) : Nat → KVChain → KVChain
  | 0, l => l
  | n + 1, l =>
    match l.previous_id with
    | none => l
    | some i =>
      match lookupId s i with
      | none => l
      | some l2 => back s n l2

/-- The JSON body of a successful hello response
(`HelloResponse` in `src/controller/hello.rs`). -/
def helloBody (v : String) : String := "\x7b\"hello\":\"" ++ v ++ "\"\x7d"

/-- The hello controller (`controller` in `src/controller/hello.rs`):
reads the query-string parameter `name`; present with value v it answers
HTTP 200 with the JSON body, absent it fails with `ParamMissing "name"`.
A pure function of the query parameters. -/
def helloController (query : String → Option String) : Except KVError (Nat × String) :=
  match query "name" with
  | some v => Except.ok (200, helloBody v)
  | none => Except.error (KVError.ParamMissing "name")

/-- Upper-casing of one configuration-key character, a nesting dot turning
into the `__` separator. -/
def envKeyChar (c : Char) : String :=
  if c = '.' then "__" else String.mk [c.toUpper]

/-- Environment variable name for a configuration key: prefix `KV`,
nesting separator `__` (`config::Environment::with_prefix("KV").separator("__")`
in `src/config/mod.rs`). -/
def envVarName (key : String) : String :=
  "KV_" ++ String.join (key.data.map envKeyChar)

/-- The environment-derived configuration source: reads the prefixed
variable and ignores empty values (`.ignore_empty(true)` in
`src/config/mod.rs`). -/
def envSource (rawEnv : String → Option String) (key : String) : Option String :=
  match rawEnv (envVarName key) with
  | none => none
  | some v => if v.isEmpty then none else some v

/-- Modelled from the spec: the config crate layers sources in order of
`add_source`, a later source overriding an earlier one for the same key.
Configurations are maps from key to value. -/
def mergeTwo (base over : String → Option String) (key : String) : Option String :=
  match over key with
  | some v => some v
  | none => base key

/-- The configuration loader (`parse` in `src/config/mod.rs`): the default
config file first, then the app-environment-specific file, then the
environment-derived settings, each overriding what came before. -/
def parse (defaultFile appEnvFile rawEnv : String → Option String) :
    String → Option String :=
  mergeTwo (mergeTwo defaultFile appEnvFile) (envSource rawEnv)

/-- Outcome of building the global configuration: a value, or a runtime
panic. -/
inductive ConfigOutcome where
  | panicked : ConfigOutcome
  | value : (String → Option String) → ConfigOutcome

/-- The AWS-secret configuration path (`from_aws_secret` in
`src/config/mod.rs`): its body is `todo!()`, so evaluating it panics. -/
def from_aws_secret : ConfigOutcome := ConfigOutcome.panicked

/-- First access to the lazily-built global configuration `C`
(`src/config/mod.rs`, lines 12-23): if `AWS_SECRET_NAME` is set and
non-empty it takes the AWS-secret path, otherwise it parses files and
environment.  `awsSecretName` is the raw environment variable
(`unwrap_or_default` turns absence into the empty string); `fileConfig`
is the outcome of `parse().unwrap()`. -/
def initC (awsSecretName : Option String) (fileConfig : ConfigOutcome) :
    ConfigOutcome :=
  if (awsSecretName.getD "").isEmpty then fileConfig else from_aws_secret

/-- A concrete root link, used to instantiate the chain invariant. -/
def chainLink0 : KVChain := ⟨0, 10, [2], "p", "i", "null", none, [1], "", 0⟩

/-- A concrete second link committed on top of the root. -/
def chainLink1 : KVChain := ⟨1, 11, [2], "p", "i", "null", some 0, [1], "", 0⟩

/-- Substring containment, phrased over the character lists of strings. -/
def containsSub (big small : String) : Prop :=
  ∃ l r : List Char, big.data = l ++ small.data ++ r

theorem containsSub_self (s : String) : containsSub s s :=
  ⟨[], [], by simp⟩

theorem containsSub_consL {b t : String} (a : String) (h : containsSub b t) :
    containsSub (a ++ b) t := by
  obtain ⟨l, r, hh⟩ := h
  exact ⟨a.data ++ l, r, by simp [hh]⟩

theorem containsSub_consR {a t : String} (b : String) (h : containsSub a t) :
    containsSub (a ++ b) t := by
  obtain ⟨l, r, hh⟩ := h
  exact ⟨l, r ++ b.data, by simp [hh]⟩

theorem containsSub_trans {a s t : String} (h1 : containsSub a s)
    (h2 : containsSub s t) : containsSub a t := by
  obtain ⟨l1, r1, hh1⟩ := h1
  obtain ⟨l2, r2, hh2⟩ := h2
  exact ⟨l1 ++ l2, r2 ++ r1, by simp [hh1, hh2]⟩

theorem containsSub_pair (a x y : String) : containsSub (a ++ x ++ y) (x ++ y) :=
  ⟨a.data, [], by simp⟩

theorem containsSub_piece (a x : String) : containsSub (a ++ x) x :=
  containsSub_consL a (containsSub_self x)

theorem payload_contains_identity (d : NewKVChain) :
    containsSub (generate_signature_payload d) d.identity := by
  unfold generate_signature_payload
  apply containsSub_consR
  apply containsSub_consR
  apply containsSub_consR
  apply containsSub_consR
  apply containsSub_consR
  apply containsSub_consR
  apply containsSub_consR
  apply containsSub_consR
  apply containsSub_consR
  apply containsSub_consR
  apply containsSub_consR
  apply containsSub_consR
  apply containsSub_consR
  apply containsSub_consR
  apply containsSub_consR
  apply containsSub_consR
  apply containsSub_consR
  exact containsSub_piece _ _

theorem payload_contains_patch (d : NewKVChain) :
    containsSub (generate_signature_payload d) d.patch := by
  unfold generate_signature_payload
  apply containsSub_consR
  apply containsSub_consR
  apply containsSub_consR
  apply containsSub_consR
  apply containsSub_consR
  apply containsSub_consR
  apply containsSub_consR
  apply containsSub_consR
  apply containsSub_consR
  apply containsSub_consR
  apply containsSub_consR
  apply containsSub_consR
  apply containsSub_consR
  apply containsSub_consR
  exact containsSub_piece _ _

theorem payload_contains_persona (d : NewKVChain) :
    containsSub (generate_signature_payload d) (hexEncode d.persona) := by
  unfold generate_signature_payload
  apply containsSub_consR
  apply containsSub_consR
  apply containsSub_consR
  apply containsSub_consR
  apply containsSub_consR
  apply containsSub_consR
  apply containsSub_consR
  apply containsSub_consR
  apply containsSub_consR
  apply containsSub_consR
  apply containsSub_consR
  exact containsSub_piece _ _

theorem payload_contains_platform (d : NewKVChain) :
    containsSub (generate_signature_payload d) d.platform := by
  unfold generate_signature_payload
  apply containsSub_consR
  apply containsSub_consR
  apply containsSub_consR
  apply containsSub_consR
  apply containsSub_consR
  apply containsSub_consR
  apply containsSub_consR
  apply containsSub_consR
  exact containsSub_piece _ _

theorem payload_contains_previous (d : NewKVChain) :
    containsSub (generate_signature_payload d)
      ("\"previous\":" ++ renderPrevious d.previous) := by
  unfold generate_signature_payload
  apply containsSub_consR
  apply containsSub_consR
  apply containsSub_consR
  apply containsSub_consR
  apply containsSub_consR
  exact containsSub_pair _ _ _

theorem containsSub_congr {big s t : String} (h : containsSub big s)
    (he : s = t) : containsSub big t := he ▸ h

/-- C1.  The canonical payload builder is deterministic: two drafts agreeing
on every field (persona, platform, identity, patch, previous link,
external id, created_at) produce byte-identical payloads. -/
theorem generate_signature_payload_deterministic (d1 d2 : NewKVChain)
    (hpk : d1.persona = d2.persona) (hpl : d1.platform = d2.platform)
    (hid : d1.identity = d2.identity) (hpa : d1.patch = d2.patch)
    (hpr : d1.previous = d2.previous) (hu : d1.uuid = d2.uuid)
    (hc : d1.created_at = d2.created_at) :
    generate_signature_payload d1 = generate_signature_payload d2 := by
  cases d1
  cases d2
  simp only at hpk hpl hid hpa hpr hu hc
  subst hpk hpl hid hpa hpr hu hc
  rfl

theorem generate_signature_payload_deterministic_witness :
    generate_signature_payload ⟨7, [2, 3], "facebook", "alice", "null", some [1], 5⟩ =
      generate_signature_payload ⟨7, [2, 3], "facebook", "alice", "null", some [1], 5⟩ :=
  generate_signature_payload_deterministic _ _ rfl rfl rfl rfl rfl rfl rfl

/-- C2.  For a persona with exactly one committed link, the draft built by
the chain head resolver records that link's signature and the canonical
payload renders `previous` as its base64 encoding; with signature `[1]`
the rendering is base64([1]) = AQ==.  For a persona with no committed
link, `previous` is recorded as none and rendered as the explicit JSON
null. -/
theorem payload_previous_field (store : List KVChain) (pk : List Nat)
    (now : Int) (u : Nat) :
    (∀ l : KVChain, committedLinks store pk = [l] →
        (for_persona store pk now u).previous = some l.signature
      ∧ renderPrevious (for_persona store pk now u).previous
          = "\"" ++ base64Encode l.signature ++ "\""
      ∧ (l.signature = [1] →
          containsSub (generate_signature_payload (for_persona store pk now u))
            "\"previous\":\"AQ==\""))
  ∧ (committedLinks store pk = [] →
        (for_persona store pk now u).previous = none
      ∧ containsSub (generate_signature_payload (for_persona store pk now u))
          "\"previous\":null") := by
  constructor
  · intro l hl
    have hprev : (for_persona store pk now u).previous = some l.signature := by
      simp [for_persona, latestCommitted, hl]
    refine ⟨hprev, ?_, ?_⟩
    · rw [hprev]
      rfl
    · intro hsig
      have h1 := payload_contains_previous (for_persona store pk now u)
      rw [hprev, hsig] at h1
      exact containsSub_congr h1 (by decide)
  · intro hl
    have hprev : (for_persona store pk now u).previous = none := by
      simp [for_persona, latestCommitted, hl]
    refine ⟨hprev, ?_⟩
    have h1 := payload_contains_previous (for_persona store pk now u)
    rw [hprev] at h1
    exact containsSub_congr h1 (by decide)

theorem payload_previous_field_witness :
    committedLinks [⟨0, 0, [2], "p", "i", "null", none, [1], "", 0⟩] [2]
        = [⟨0, 0, [2], "p", "i", "null", none, [1], "", 0⟩]
    ∧ (for_persona [⟨0, 0, [2], "p", "i", "null", none, [1], "", 0⟩] [2] 5 9).previous
        = some [1]
    ∧ containsSub
        (generate_signature_payload
          (for_persona [⟨0, 0, [2], "p", "i", "null", none, [1], "", 0⟩] [2] 5 9))
        "\"previous\":\"AQ==\"" :=
  ⟨by decide,
   ((payload_previous_field [⟨0, 0, [2], "p", "i", "null", none, [1], "", 0⟩]
      [2] 5 9).1 ⟨0, 0, [2], "p", "i", "null", none, [1], "", 0⟩ (by decide)).1,
   (((payload_previous_field [⟨0, 0, [2], "p", "i", "null", none, [1], "", 0⟩]
      [2] 5 9).1 ⟨0, 0, [2], "p", "i", "null", none, [1], "", 0⟩ (by decide)).2.2 rfl)⟩

/-- C3.  An authorized proposal by a fresh persona (no committed link) for
platform facebook, identity alice and patch test:abc succeeds, and the
returned sign_payload contains the persona's hex-encoded public key,
"facebook", "alice", the patch fragment, and the explicit previous:null
fragment. -/
theorem fresh_persona_payload (w : World) (req : PayloadRequest)
    (keyHex : String) (pk : List Nat)
    (hsel : selectKey req = some keyHex)
    (hnorm : w.normalize keyHex = Except.ok pk)
    (hauth : w.authAllow pk req.platform req.identity = true)
    (hplat : req.platform = "facebook")
    (hid : req.identity = "alice")
    (hpatch : req.patch = "\x7b\"test\":\"abc\"\x7d")
    (hfresh : committedLinks w.store pk = []) :
    (controller w req).1 = Except.ok
      ⟨(proposeDraft w req pk).uuid,
       generate_signature_payload (proposeDraft w req pk),
       (proposeDraft w req pk).created_at⟩
    ∧ containsSub (generate_signature_payload (proposeDraft w req pk)) (hexEncode pk)
    ∧ containsSub (generate_signature_payload (proposeDraft w req pk)) "facebook"
    ∧ containsSub (generate_signature_payload (proposeDraft w req pk)) "alice"
    ∧ containsSub (generate_signature_payload (proposeDraft w req pk)) "\"test\":\"abc\""
    ∧ containsSub (generate_signature_payload (proposeDraft w req pk)) "\"previous\":null" := by
  have hpersona : (proposeDraft w req pk).persona = pk := by
    simp [proposeDraft, for_persona]
  have hprev : (proposeDraft w req pk).previous = none := by
    simp [proposeDraft, for_persona, latestCommitted, hfresh]
  refine ⟨?_, ?_, ?_, ?_, ?_, ?_⟩
  · simp [controller, hsel, hnorm, hauth]
  · have h := payload_contains_persona (proposeDraft w req pk)
    rwa [hpersona] at h
  · have h := payload_contains_platform (proposeDraft w req pk)
    have hp : (proposeDraft w req pk).platform = "facebook" := by
      simp [proposeDraft, hplat]
    rwa [hp] at h
  · have h := payload_contains_identity (proposeDraft w req pk)
    have hi : (proposeDraft w req pk).identity = "alice" := by
      simp [proposeDraft, hid]
    rwa [hi] at h
  · have h := payload_contains_patch (proposeDraft w req pk)
    have hpa : (proposeDraft w req pk).patch = "\x7b\"test\":\"abc\"\x7d" := by
      simp [proposeDraft, hpatch]
    rw [hpa] at h
    exact containsSub_trans h ⟨['\x7b'], ['\x7d'], by decide⟩
  · have h := payload_contains_previous (proposeDraft w req pk)
    rw [hprev] at h
    exact containsSub_congr h (by decide)

theorem fresh_persona_payload_witness :
    (controller
      ⟨fun _ => Except.ok [2, 3], fun _ _ _ => true, [], 5, 9⟩
      ⟨none, some "0203", "facebook", "alice", "\x7b\"test\":\"abc\"\x7d"⟩).1
      = Except.ok
        ⟨(proposeDraft ⟨fun _ => Except.ok [2, 3], fun _ _ _ => true, [], 5, 9⟩
            ⟨none, some "0203", "facebook", "alice", "\x7b\"test\":\"abc\"\x7d"⟩ [2, 3]).uuid,
         generate_signature_payload
           (proposeDraft ⟨fun _ => Except.ok [2, 3], fun _ _ _ => true, [], 5, 9⟩
            ⟨none, some "0203", "facebook", "alice", "\x7b\"test\":\"abc\"\x7d"⟩ [2, 3]),
         (proposeDraft ⟨fun _ => Except.ok [2, 3], fun _ _ _ => true, [], 5, 9⟩
            ⟨none, some "0203", "facebook", "alice", "\x7b\"test\":\"abc\"\x7d"⟩ [2, 3]).created_at⟩ :=
  (fresh_persona_payload
    ⟨fun _ => Except.ok [2, 3], fun _ _ _ => true, [], 5, 9⟩
    ⟨none, some "0203", "facebook", "alice", "\x7b\"test\":\"abc\"\x7d"⟩
    "0203" [2, 3] rfl rfl rfl rfl rfl rfl rfl).1

/-- C4.  Key selection follows fallback priority: a supplied avatar value
is the selected key whatever the persona field holds; with avatar absent
the persona field is used; and the selection depends on no other request
field. -/
theorem key_selection_fallback :
    (∀ req : PayloadRequest, ∀ v : String, req.avatar = some v →
        selectKey req = some v)
  ∧ (∀ req : PayloadRequest, req.avatar = none → selectKey req = req.persona)
  ∧ (∀ r1 r2 : PayloadRequest, r1.avatar = r2.avatar → r1.persona = r2.persona →
        selectKey r1 = selectKey r2) := by
  refine ⟨?_, ?_, ?_⟩
  · intro req v h
    simp [selectKey, h, Option.or]
  · intro req h
    cases hp : req.persona <;> simp [selectKey, h, hp, Option.or]
  · intro r1 r2 ha hp
    simp [selectKey, ha, hp]

theorem key_selection_fallback_witness :
    selectKey ⟨some "p", some "a", "x", "y", "z"⟩ = some "a"
    ∧ selectKey ⟨some "p", none, "x", "y", "z"⟩ = some "p" :=
  ⟨key_selection_fallback.1 ⟨some "p", some "a", "x", "y", "z"⟩ "a" rfl,
   (key_selection_fallback.2.1 ⟨some "p", none, "x", "y", "z"⟩ rfl)⟩

/-- C5.  A proposal with both persona and avatar absent fails with
MissingParameter and its effect trace is empty: no authorization call, no
store connection, no head resolution, no payload generation. -/
theorem missing_parameter_no_effects (w : World) (req : PayloadRequest)
    (hp : req.persona = none) (ha : req.avatar = none) :
    controller w req = (Except.error KVError.MissingParameter, []) := by
  simp [controller, selectKey, hp, ha, Option.or]

theorem missing_parameter_no_effects_witness :
    controller ⟨fun _ => Except.ok [2], fun _ _ _ => true, [], 5, 9⟩
        ⟨none, none, "facebook", "alice", "null"⟩
      = (Except.error KVError.MissingParameter, []) :=
  missing_parameter_no_effects
    ⟨fun _ => Except.ok [2], fun _ _ _ => true, [], 5, 9⟩
    ⟨none, none, "facebook", "alice", "null"⟩ rfl rfl

/-- C6.  A proposal denied by the authorization gate fails with
NotAuthorized; its effect trace is exactly the authorization call, so no
store connection, head resolution or payload generation happens and the
persona's chain is untouched. -/
theorem not_authorized_no_mutation (w : World) (req : PayloadRequest)
    (keyHex : String) (pk : List Nat)
    (hsel : selectKey req = some keyHex)
    (hnorm : w.normalize keyHex = Except.ok pk)
    (hdeny : w.authAllow pk req.platform req.identity = false) :
    controller w req = (Except.error KVError.NotAuthorized, [Effect.authCall])
    ∧ Effect.dbConnect ∉ (controller w req).2
    ∧ Effect.dbHeadResolve ∉ (controller w req).2
    ∧ Effect.payloadGen ∉ (controller w req).2 := by
  have h : controller w req = (Except.error KVError.NotAuthorized, [Effect.authCall]) := by
    simp [controller, hsel, hnorm, hdeny]
  refine ⟨h, ?_, ?_, ?_⟩ <;> rw [h] <;> decide

theorem not_authorized_no_mutation_witness :
    controller ⟨fun _ => Except.ok [2], fun _ _ _ => false, [], 5, 9⟩
        ⟨none, some "02", "facebook", "alice", "null"⟩
      = (Except.error KVError.NotAuthorized, [Effect.authCall]) :=
  (not_authorized_no_mutation
    ⟨fun _ => Except.ok [2], fun _ _ _ => false, [], 5, 9⟩
    ⟨none, some "02", "facebook", "alice", "null"⟩ "02" [2] rfl rfl rfl).1

theorem reachable_wellFormed {s : List KVChain} (h : Reachable s) : wellFormed s := by
  induction h with
  | empty => exact trivial
  | propose s hr ih => exact ih
  | commit s l hr hid hprev hsig ih => exact ⟨hid, hprev, ih⟩

theorem wf_id_get :
    ∀ (s : List KVChain), wellFormed s →
      ∀ (k : Nat) (hk : k < s.length), (s.get ⟨k, hk⟩).id = s.length - 1 - k := by
  intro s
  induction s with
  | nil => intro _ k hk; exact absurd hk (by simp)
  | cons a rest ih =>
    intro h k hk
    obtain ⟨h1, h2, h3⟩ := h
    cases k with
    | zero =>
      show a.id = (a :: rest).length - 1 - 0
      simp [h1]
    | succ j =>
      have hj : j < rest.length := Nat.lt_of_succ_lt_succ (by simpa using hk)
      have e := ih h3 j hj
      show ((a :: rest).get ⟨j + 1, hk⟩).id = (a :: rest).length - 1 - (j + 1)
      rw [List.get_cons_succ]
      rw [e]
      simp
      omega

theorem wf_prev :
    ∀ (s : List KVChain), wellFormed s →
      ∀ l ∈ s, l.previous_id = if l.id = 0 then none else some (l.id - 1) := by
  intro s
  induction s with
  | nil => intro _ l hl; exact absurd hl (by simp)
  | cons a rest ih =>
    intro h l hl
    obtain ⟨h1, h2, h3⟩ := h
    rcases List.mem_cons.mp hl with rfl | hmem
    · cases rest with
      | nil =>
        rw [h2, h1]
        rfl
      | cons b rest2 =>
        obtain ⟨hb1, _, _⟩ := h3
        rw [h2, h1]
        show some b.id = if (b :: rest2).length = 0 then none else some ((b :: rest2).length - 1)
        rw [if_neg (by simp)]
        rw [hb1]
        simp
    · exact ih h3 l hmem

theorem wf_id_inj (s : List KVChain) (h : wellFormed s) :
    ∀ l ∈ s, ∀ l2 ∈ s, l.id = l2.id → l = l2 := by
  intro l hl l2 hl2 hid
  obtain ⟨⟨n, hn⟩, he1⟩ := List.mem_iff_get.mp hl
  obtain ⟨⟨m, hm⟩, he2⟩ := List.mem_iff_get.mp hl2
  have e1 := wf_id_get s h n hn
  have e2 := wf_id_get s h m hm
  rw [he1] at e1
  rw [he2] at e2
  have : n = m := by omega
  subst this
  rw [← he1, ← he2]

theorem wf_id_surj (s : List KVChain) (h : wellFormed s) :
    ∀ i, i < s.length → ∃ l, l ∈ s ∧ l.id = i := by
  intro i hi
  have hk : s.length - 1 - i < s.length := by omega
  refine ⟨s.get ⟨s.length - 1 - i, hk⟩, List.get_mem s _ hk, ?_⟩
  rw [wf_id_get s h _ hk]
  omega

theorem wf_back (s : List KVChain) (h : wellFormed s) :
    ∀ n, ∀ l ∈ s, l.id ≤ n →
      back s n l ∈ s ∧ (back s n l).previous_id = none := by
  intro n
  induction n with
  | zero =>
    intro l hl hid
    have hp := wf_prev s h l hl
    have h0 : l.id = 0 := Nat.le_zero.mp hid
    rw [h0] at hp
    simp at hp
    exact ⟨by simpa [back] using hl, by simpa [back] using hp⟩
  | succ n ih =>
    intro l hl hid
    have hp := wf_prev s h l hl
    by_cases h0 : l.id = 0
    · rw [h0] at hp
      simp at hp
      have hb : back s (n + 1) l = l := by simp [back, hp]
      rw [hb]
      exact ⟨hl, hp⟩
    · rw [if_neg h0] at hp
      have hlen : l.id < s.length := by
        obtain ⟨⟨m, hm2⟩, hm⟩ := List.mem_iff_get.mp hl
        have e := wf_id_get s h m hm2
        rw [hm] at e
        omega
      obtain ⟨l2, hl2mem, hl2id⟩ := wf_id_surj s h (l.id - 1) (by omega)
      have hfindSome : (s.find? (fun x => x.id == (l.id - 1))).isSome := by
        exact List.find?_isSome.mpr ⟨l2, hl2mem, by simp [hl2id]⟩
      obtain ⟨l3, hl3⟩ := Option.isSome_iff_exists.mp hfindSome
      have hl3' : lookupId s (l.id - 1) = some l3 := hl3
      have hl3mem : l3 ∈ s := List.mem_of_find?_eq_some hl3
      have hl3id : l3.id = l.id - 1 := by
        have := List.find?_some hl3
        simpa using this
      have hb : back s (n + 1) l = back s n l3 := by
        simp [back, hp, hl3']
      rw [hb]
      exact ih l3 hl3mem (by omega)

theorem wf_no_fork (s : List KVChain) (h : wellFormed s) :
    ∀ l ∈ s, ∀ l2 ∈ s, l.previous_id = l2.previous_id → l = l2 := by
  intro l hl l2 hl2 hp
  have h1 := wf_prev s h l hl
  have h2 := wf_prev s h l2 hl2
  apply wf_id_inj s h l hl l2 hl2
  by_cases c1 : l.id = 0 <;> by_cases c2 : l2.id = 0
  · rw [c1, c2]
  · rw [if_pos c1] at h1
    rw [if_neg c2] at h2
    rw [h1, h2] at hp
    exact absurd hp (by simp)
  · rw [if_neg c1] at h1
    rw [if_pos c2] at h2
    rw [h1, h2] at hp
    exact absurd hp (by simp)
  · rw [if_neg c1] at h1
    rw [if_neg c2] at h2
    rw [h1, h2] at hp
    have := Option.some.inj hp
    omega

theorem wf_root_unique (s : List KVChain) (h : wellFormed s) :
    ∀ r ∈ s, ∀ r2 ∈ s, r.previous_id = none → r2.previous_id = none → r = r2 := by
  intro r hr r2 hr2 hn hn2
  have h1 := wf_prev s h r hr
  have h2 := wf_prev s h r2 hr2
  apply wf_id_inj s h r hr r2 hr2
  have e1 : r.id = 0 := by
    by_contra hc
    rw [if_neg hc] at h1
    rw [hn] at h1
    exact Option.noConfusion h1
  have e2 : r2.id = 0 := by
    by_contra hc
    rw [if_neg hc] at h2
    rw [hn2] at h2
    exact Option.noConfusion h2
  rw [e1, e2]

/-- C7.  In every reachable state of a persona's chain store — reachability
covering both operations, propose and commit — the committed links form
one linear chain: no two links share a `previous_id` (no forks), following
`previous_id` from any link terminates (within id-many steps, so there is
no cycle) at a root with `previous_id = null`, and that root is unique. -/
theorem chain_linearity (s : List KVChain) (h : Reachable s) :
    (∀ l ∈ s, ∀ l2 ∈ s, l.previous_id = l2.previous_id → l = l2)
  ∧ (∀ l ∈ s, back s l.id l ∈ s ∧ (back s l.id l).previous_id = none)
  ∧ (∀ r ∈ s, ∀ r2 ∈ s, r.previous_id = none → r2.previous_id = none → r = r2) := by
  have hw := reachable_wellFormed h
  exact ⟨wf_no_fork s hw,
         fun l hl => wf_back s hw l.id l hl (Nat.le_refl _),
         wf_root_unique s hw⟩

theorem chain_linearity_witness :
    back [chainLink1, chainLink0] chainLink1.id chainLink1 ∈ [chainLink1, chainLink0]
    ∧ (back [chainLink1, chainLink0] chainLink1.id chainLink1).previous_id = none := by
  have hr : Reachable [chainLink1, chainLink0] :=
    Reachable.commit _ _
      (Reachable.commit _ _ Reachable.empty rfl rfl (by decide))
      rfl rfl (by decide)
  exact (chain_linearity _ hr).2.1 chainLink1 (by decide)

/-- C8.  Configuration sources are layered with fixed precedence: file
settings first (the app-environment file over the default file), the
environment-derived settings second, overriding any file value for the
same key; an environment variable that is present but empty is ignored. -/
theorem config_precedence (d a e : String → Option String) (key : String) :
    (∀ v, envSource e key = some v → parse d a e key = some v)
  ∧ (envSource e key = none → parse d a e key = mergeTwo d a key)
  ∧ (e (envVarName key) = some "" → parse d a e key = mergeTwo d a key)
  ∧ (∀ v, a key = some v → envSource e key = none → parse d a e key = some v) := by
  refine ⟨?_, ?_, ?_, ?_⟩
  · intro v hv
    simp [parse, mergeTwo, hv]
  · intro hv
    simp [parse, mergeTwo, hv]
  · intro hv
    have he : envSource e key = none := by
      simp [envSource, hv]
      decide
    simp [parse, mergeTwo, he]
  · intro v hv hnone
    simp [parse, mergeTwo, hnone, hv]

theorem config_precedence_witness :
    parse (fun k => if k = "db.host" then some "filehost" else none)
          (fun _ => none)
          (fun k => if k = "KV_DB__HOST" then some "envhost" else none)
          "db.host" = some "envhost" :=
  (config_precedence
    (fun k => if k = "db.host" then some "filehost" else none)
    (fun _ => none)
    (fun k => if k = "KV_DB__HOST" then some "envhost" else none)
    "db.host").1 "envhost" (by decide)

/-- C9.  The hello controller answers HTTP 200 with the JSON hello body
when the query parameter `name` is present with value v, and fails with
`ParamMissing "name"` exactly when that parameter is absent; it is a pure
function of the query parameters. -/
theorem hello_controller_spec (query : String → Option String) :
    (∀ v, query "name" = some v →
        helloController query = Except.ok (200, helloBody v))
  ∧ (helloController query = Except.error (KVError.ParamMissing "name")
       ↔ query "name" = none) := by
  constructor
  · intro v hv
    simp [helloController, hv]
  · constructor
    · intro h
      cases hq : query "name" with
      | none => rfl
      | some v => simp [helloController, hq] at h
    · intro h
      simp [helloController, h]

theorem hello_controller_spec_witness :
    helloController (fun k => if k = "name" then some "bob" else none)
      = Except.ok (200, helloBody "bob") :=
  (hello_controller_spec (fun k => if k = "name" then some "bob" else none)).1
    "bob" rfl

/-- C10.  With the environment variable AWS_SECRET_NAME set to a non-empty
value, first access to the global configuration takes the AWS-secret path,
whose body is todo!, so the access panics whatever the file configuration
would have been; the alternate configuration source can never produce a
value. -/
theorem aws_secret_panics (v : String) (hv : v ≠ "")
    (fileConfig : ConfigOutcome) :
    initC (some v) fileConfig = ConfigOutcome.panicked
    ∧ from_aws_secret = ConfigOutcome.panicked := by
  have hne : v.isEmpty = false := by
    cases hvv : v.isEmpty
    · rfl
    · exact absurd ((String.isEmpty_iff v).mp hvv) hv
  constructor
  · simp [initC, Option.getD, hne, from_aws_secret]
  · rfl

theorem aws_secret_panics_witness :
    initC (some "mysecret") (ConfigOutcome.value fun _ => none)
      = ConfigOutcome.panicked :=
  (aws_secret_panics "mysecret" (by decide)
    (ConfigOutcome.value fun _ => none)).1
